import Mathlib

/-!
Shallow embedding of `python/phire/rplearn/train.py`.

Tensors are nested lists of rationals: float32 arithmetic is modelled by exact
rational arithmetic, and the transcendental functions `tf.math.cos` /
`tf.math.sin` together with the float constant `np.pi` are abstracted into a
context of rational-valued functions. Raw byte strings are modelled as the
list of float32 values they decode to. External nondeterminism (file reading
order, shuffling, the Keras encoder loaded from disk, `glob`) is passed in as
function parameters.
-/

/-- Abstraction of the numeric environment used by `parse_train`:
`tf.math.cos`, `tf.math.sin` and the constant `np.pi`. -/
structure NumCtx where
  fcos : ℚ → ℚ
  fsin : ℚ → ℚ
  fpi : ℚ

/-- One deserialized TFRecord sample, as produced by `parse_samples`: the
feature fields of the example proto. The raw byte strings `patch1` and
`patch2` are modelled as the list of float32 values they decode to via
`tf.io.decode_raw(..., tf.float32)`. -/
structure Sample where
  H : ℕ
  W : ℕ
  C : ℕ
  T_max : ℕ
  label : ℤ
  patch1 : List ℚ
  patch2 : List ℚ
  lat_start : ℚ
  lat_end : ℚ
  long_start : ℚ
  long_end : ℚ
deriving DecidableEq, Inhabited

/-- Rank-4 tensor, indexed `[n][h][w][c]`. -/
abbrev T4 := List (List (List (List ℚ)))

/-- Rank-3 tensor, indexed `[h][w][c]`. -/
abbrev T3 := List (List (List ℚ))

/-- `tf.one_hot i depth` (line 29): entry `j` equals 1 exactly when `j = i`;
an index outside `[0, depth)` yields the all-zero vector. -/
def one_hot (i : ℤ) (depth : ℕ) : List ℚ :=
  (List.range depth).map (fun (j : ℕ) => if (j : ℤ) = i then 1 else 0)

/-- Line 22, `T_max = tmax or examples[T_max][0]`: Python `or` falls back to
the record field whenever the `tmax` argument is falsy, i.e. absent or zero. -/
def tmaxSelect (tmax : Option ℕ) (record : ℕ) : ℕ :=
  match tmax with
  | some t => if t = 0 then record else t
  | none => record

/-- Reading of line 22 that follows the wording of the specification claim:
the `tmax` argument whenever it is given, otherwise the record field. Stated
only for comparison with `tmaxSelect`. -/
def tmaxSelectSpec (tmax : Option ℕ) (record : ℕ) : ℕ :=
  tmax.getD record

/-- `tf.linspace a b n`: `n` evenly spaced values from `a` to `b`
(for `n = 1` the quotient degenerates to `0` and the list is `[a]`,
matching `tf.linspace`). -/
def linspace (a b : ℚ) (n : ℕ) : List ℚ :=
  (List.range n).map (fun (i : ℕ) => a + (b - a) * (i : ℚ) / ((n : ℚ) - 1))

/-- Row-major reshape of a flat buffer to shape `(-1, H, W, C)`
(lines 25 and 27, `tf.reshape(..., (-1, H, W, C))`). -/
def reshape4 (flat : List ℚ) (H W C : ℕ) : T4 :=
  (List.range (flat.length / (H * W * C))).map fun n =>
    (List.range H).map fun h =>
      (List.range W).map fun w =>
        (List.range C).map fun c =>
          flat.getD (((n * H + h) * W + w) * C + c) 0

/-- Latitude cosine channel of sample `s` at row `h` (lines 32 and 38): after
the transpose and tile, entry `(n, h, w, 0)` is
`cos(2π · linspace(lat_start, lat_end, H)[h] / 180)`, independent of `w`. -/
def lat_cos (ctx : NumCtx) (s : Sample) (H : ℕ) (h : ℕ) : ℚ :=
  ctx.fcos (2 * ctx.fpi * (linspace s.lat_start s.lat_end H).getD h 0 / 180)

/-- Latitude sine channel (lines 33 and 39). -/
def lat_sin (ctx : NumCtx) (s : Sample) (H : ℕ) (h : ℕ) : ℚ :=
  ctx.fsin (2 * ctx.fpi * (linspace s.lat_start s.lat_end H).getD h 0 / 180)

/-- Longitude cosine channel of sample `s` at column `w` (lines 35 and 41):
entry `(n, h, w, 0)` is `cos(2π · linspace(long_start, long_end, W)[w] / 360)`,
independent of `h`. -/
def lon_cos (ctx : NumCtx) (s : Sample) (W : ℕ) (w : ℕ) : ℚ :=
  ctx.fcos (2 * ctx.fpi * (linspace s.long_start s.long_end W).getD w 0 / 360)

/-- Longitude sine channel (lines 36 and 42). -/
def lon_sin (ctx : NumCtx) (s : Sample) (W : ℕ) (w : ℕ) : ℚ :=
  ctx.fsin (2 * ctx.fpi * (linspace s.long_start s.long_end W).getD w 0 / 360)

/-- Lines 44-45: `tf.concat([patch, lat_cos, lat_sin, lon_cos, lon_sin], -1)`.
Along the channel axis, sample `n`, row `h`, column `w` gains the four entries
`[lat_cos, lat_sin, lon_cos, lon_sin]` computed from sample `n` of the batch. -/
def appendLatlon (ctx : NumCtx) (batch : List Sample) (H W : ℕ) (t : T4) : T4 :=
  t.mapIdx fun n img =>
    let s := batch.getD n default
    img.mapIdx fun h row =>
      row.mapIdx fun w chans =>
        chans ++ [lat_cos ctx s H h, lat_sin ctx s H h,
                  lon_cos ctx s W w, lon_sin ctx s W w]

/-- The dict `X = {img1: patch1, img2: patch2}` of line 52. -/
structure XPair where
  img1 : T4
  img2 : T4
deriving DecidableEq

/-- The triple `(X, y, weights)` returned by `parse_train` (line 55). -/
structure ParseOut where
  X : XPair
  y : List (List ℚ)
  weights : List ℚ
deriving DecidableEq

/-- Lines 17-55, `parse_train(serialized, append_latlon, discount, tmax)`:
`serialized` is modelled as the list of already-deserialized samples of the
batch. Indexing `examples[...][0]` fails on an empty batch, hence `none`
there. `H`, `W`, `C` and the `T_max` record field are taken from the first
sample; the patches are decoded and reshaped to `(-1, H, W, C)`; the label
is one-hot encoded with depth `T_max - 1`; the optional geospatial channels
are appended to both patches; the weights are 1.9 / 0.1 under `discount`
(split at `T_max // 2`) and the constant 1 broadcast to `(N,)` otherwise. -/
def parse_train (ctx : NumCtx) (batch : List Sample) (append_latlon : Bool)
    (discount : Bool) (tmax : Option ℕ) : Option ParseOut :=
  match batch with
  | [] => none
  | first :: _ =>
    let N := batch.length
    let H := first.H
    let W := first.W
    let C := first.C
    let T_max := tmaxSelect tmax first.T_max
    let patch1 := reshape4 ((batch.map Sample.patch1).flatten) H W C
    let patch2 := reshape4 ((batch.map Sample.patch2).flatten) H W C
    let labels := batch.map (fun s => one_hot (s.label - 1) (T_max - 1))
    let patch1 := if append_latlon then appendLatlon ctx batch H W patch1 else patch1
    let patch2 := if append_latlon then appendLatlon ctx batch H W patch2 else patch2
    let weights :=
      if discount then
        batch.map (fun s => if s.label ≤ ((T_max / 2 : ℕ) : ℤ) then 19/10 else 1/10)
      else
        List.replicate N (1 : ℚ)
    some { X := { img1 := patch1, img2 := patch2 }, y := labels, weights := weights }

/-- Python-level and TF-level runtime errors surfaced by the embedding. -/
inductive PyErr
  | assertionError
  | indexError
  | attributeError
  | dimMismatch
deriving DecidableEq

/-- One element of the dataset after `ds.unbatch()` (line 68): a single
`(X, y, weight)` triple with per-sample tensors. -/
structure Elem where
  img1 : T3
  img2 : T3
  y : List ℚ
  weight : ℚ
deriving DecidableEq

/-- `ds.unbatch()` (line 68) applied to the output of one `parse_train` call:
splits the leading axis, requiring all components to share its extent. -/
def unbatchOne : Option ParseOut → Except PyErr (List Elem)
  | none => .error .indexError
  | some o =>
    if o.X.img1.length = o.y.length ∧ o.X.img2.length = o.y.length ∧
        o.weights.length = o.y.length then
      .ok ((List.range o.y.length).map fun n =>
        { img1 := o.X.img1.getD n [], img2 := o.X.img2.getD n [],
          y := o.y.getD n [], weight := o.weights.getD n 0 })
    else
      .error .dimMismatch

/-- `unbatchOne` over the stream of parsed batches, propagating failure. -/
def unbatchAll : List (Option ParseOut) → Except PyErr (List (List Elem))
  | [] => .ok []
  | p :: ps => do
    let e ← unbatchOne p
    let rest ← unbatchAll ps
    .ok (e :: rest)

/-- `ds.batch(n)` (lines 66 and 70): consecutive groups of `n` elements, the
last group possibly shorter (`drop_remainder` defaults to false). -/
def batchList {α : Type} (n : ℕ) (l : List α) : List (List α) :=
  (List.range ((l.length + n - 1) / n)).map (fun i => (l.drop (i * n)).take n)

/-- Lines 63-64, `if n_shuffle: ds = ds.shuffle(n_shuffle)`. The shuffle is
external nondeterminism, passed in as `shuffleFn` whose first argument is the
buffer size; Python truthiness skips it for `None` and for 0. -/
def shuffledStream (shuffleFn : ℕ → List Sample → List Sample)
    (n_shuffle : Option ℕ) (stream : List Sample) : List Sample :=
  match n_shuffle with
  | some k => if k = 0 then stream else shuffleFn k stream
  | none => stream

/-- Lines 58-72, `make_train_ds`: `files` holds the record stream of each
file, and `read` models `tf.data.TFRecordDataset(files, num_parallel_reads=4,
compression_type=...)`, an interleaved read of those streams. After
`assert files`, the stream is optionally shuffled, grouped into singleton
batches, parsed, unbatched, filtered down to the elements whose label vector
sums to 1, and batched into groups of `batch_size`. The final `prefetch`
only affects buffering and has no effect on the element sequence. -/
def make_train_ds (ctx : NumCtx) (read : List (List Sample) → List Sample)
    (shuffleFn : ℕ → List Sample → List Sample) (files : List (List Sample))
    (batch_size : ℕ) (n_shuffle : Option ℕ) (append_latlon : Bool)
    (discount : Bool) (tmax : Option ℕ) : Except PyErr (List (List Elem)) :=
  if files = [] then .error .assertionError
  else
    let stream := shuffledStream shuffleFn n_shuffle (read files)
    let parsed := (batchList 1 stream).map
      (fun b => parse_train ctx b append_latlon discount tmax)
    match unbatchAll parsed with
    | .error e => .error e
    | .ok elems =>
      let filtered := elems.flatten.filter (fun e => decide (e.y.sum = 1))
      .ok (batchList batch_size filtered)

/-- A sample whose patch byte strings decode to exactly `H*W*C` float32
values each, with a positive patch volume. -/
def SampleWF (s : Sample) : Prop :=
  s.patch1.length = s.H * s.W * s.C ∧ s.patch2.length = s.H * s.W * s.C ∧
    0 < s.H * s.W * s.C

/-- The single dataset element a well-formed sample contributes after
`batch(1)`, `parse_train` and `unbatch`. -/
def elemOf (ctx : NumCtx) (append_latlon discount : Bool) (tmax : Option ℕ)
    (s : Sample) : Elem :=
  let T_max := tmaxSelect tmax s.T_max
  let base1 := reshape4 s.patch1 s.H s.W s.C
  let base2 := reshape4 s.patch2 s.H s.W s.C
  { img1 := (if append_latlon then appendLatlon ctx [s] s.H s.W base1 else base1).getD 0 []
    img2 := (if append_latlon then appendLatlon ctx [s] s.H s.W base2 else base2).getD 0 []
    y := one_hot (s.label - 1) (T_max - 1)
    weight :=
      if discount then
        (if s.label ≤ ((T_max / 2 : ℕ) : ℤ) then 19/10 else 1/10)
      else 1 }

/-- The labels whose one-hot encoding with depth `T_max - 1` is not all-zero:
the stored label lies in `1 .. T_max - 1` for the selected `T_max`. -/
def labelInRange (tmax : Option ℕ) (s : Sample) : Prop :=
  1 ≤ s.label ∧ s.label ≤ ((tmaxSelect tmax s.T_max - 1 : ℕ) : ℤ)

instance (tmax : Option ℕ) (s : Sample) : Decidable (labelInRange tmax s) := by
  unfold labelInRange; infer_instance

instance : DecidablePred SampleWF := fun s => by
  unfold SampleWF
  infer_instance

/-- Entry accessor for a rank-4 tensor, defaulting to 0 out of bounds. -/
def tIdx4 (t : T4) (n h w c : ℕ) : ℚ :=
  (((t.getD n []).getD h []).getD w []).getD c 0

/-- Line 81, `self.n_classes = 31`. -/
def n_classes : ℕ := 31

/-- Line 78, the fixed glob pattern for the training TFRecord files. -/
def data_glob_train : String :=
  "/data2/stengel/HR/rplearn_train_1979_1990.*.tfrecords"

/-- Line 79, the fixed glob pattern for the evaluation TFRecord files. -/
def data_glob_eval : String :=
  "/data2/stengel/HR/rplearn_eval_2000_2002.*.tfrecords"

/-- Line 78, `sorted(glob(...))` for the training files: `globFn` models the
filesystem lookup `glob`. -/
def data_path_train (globFn : String → List String) : List String :=
  (globFn data_glob_train).mergeSort (fun a b => decide (a ≤ b))

/-- Line 79, `sorted(glob(...))` for the evaluation files. -/
def data_path_eval (globFn : String → List String) : List String :=
  (globFn data_glob_eval).mergeSort (fun a b => decide (a ≤ b))

/-- Lines 132-135, `Train.setup_ds`: the training dataset is built with batch
size 128, a shuffle buffer of 2000 and `tmax = self.n_classes + 1`, then
truncated to 5400 batches; the evaluation dataset is built with
`n_shuffle=None` and the same batch size and `tmax`. -/
def Train_setup_ds (ctx : NumCtx) (read : List (List Sample) → List Sample)
    (shuffleFn : ℕ → List Sample → List Sample)
    (filesTrain filesEval : List (List Sample)) :
    Except PyErr (List (List Elem)) × Except PyErr (List (List Elem)) :=
  ((make_train_ds ctx read shuffleFn filesTrain 128 (some 2000) false false
      (some (n_classes + 1))).map (fun l => l.take 5400),
   make_train_ds ctx read shuffleFn filesEval 128 none false false
      (some (n_classes + 1)))

/-- The `datetime.today()` value of line 115, to the precision the checkpoint
name uses. -/
structure Datetime where
  year : ℕ
  month : ℕ
  day : ℕ
  hour : ℕ
  minute : ℕ
deriving DecidableEq

/-- Zero-padded two-digit decimal rendering (`%m`, `%d`, `%H`, `%M`). -/
def pad2 (n : ℕ) : String :=
  if n < 10 then "0" ++ toString n else toString n

/-- Zero-padded four-digit decimal rendering (`%Y`). -/
def pad4 (n : ℕ) : String :=
  if n < 10 then "000" ++ toString n
  else if n < 100 then "00" ++ toString n
  else if n < 1000 then "0" ++ toString n
  else toString n

/-- `strftime` for the fixed format string of line 116, `%Y-%m-%d_%H%M`. -/
def strftime_YmdHM (t : Datetime) : String :=
  pad4 t.year ++ "-" ++ pad2 t.month ++ "-" ++ pad2 t.day ++ "_" ++
    pad2 t.hour ++ pad2 t.minute

/-- The attributes of the `Train` instance that `setup_dir` and the
checkpoint-directory name depend on: `model_dir` (line 87), the checkpoint
name prefix (line 88, attribute name `prefix` in the source), `description`
(line 89) and `start_time` (line 115). -/
structure TrainCfg where
  model_dir : String
  prefixStr : String
  description : String
  start_time : Datetime

/-- Line 116: `checkpoint_dir = model_dir / (prefix + underscore + timestamp)`
with the timestamp formatted as `%Y-%m-%d_%H%M`. -/
def checkpoint_dir (cfg : TrainCfg) : String :=
  cfg.model_dir ++ "/" ++ cfg.prefixStr ++ "_" ++ strftime_YmdHM cfg.start_time

/-- Filesystem effects of `Train.setup_dir`. -/
inductive FsOp
  | makedirs (path : String)
  | writeFile (path : String) (content : String)
deriving DecidableEq

/-- Lines 121-129, `Train.setup_dir`, as its trace of filesystem effects:
create the checkpoint directory, write `description.txt` only when the
description string is truthy (non-empty), and write `model_summary.txt`.
`modelSummary` stands for the text the external `resnet.summary(f)` call
writes. -/
def setup_dir (cfg : TrainCfg) (modelSummary : String) : List FsOp :=
  [FsOp.makedirs (checkpoint_dir cfg)] ++
    (if cfg.description ≠ "" then
      [FsOp.writeFile (checkpoint_dir cfg ++ "/description.txt") cfg.description]
    else []) ++
    [FsOp.writeFile (checkpoint_dir cfg ++ "/model_summary.txt") modelSummary]

/-- The attribute names assigned on the `Train` instance: lines 78-116 of
`__init__` (including `prefix`, stored under the source attribute name) and
lines 133-135 of the `setup_ds` call made on line 118. No other method of
`Train` assigns an attribute to `self`; in particular none assigns `tmax`. -/
def trainInitAttrs : List String :=
  ["data_path_train", "data_path_eval", "val_freq", "n_classes", "resnet",
   "model_dir", "prefix", "description", "start_time", "checkpoint_dir",
   "train_ds", "eval_ds"]

/-- Python attribute lookup: a missing attribute raises `AttributeError`. -/
def getattr (attrs : List String) (name : String) : Except PyErr Unit :=
  if name ∈ attrs then .ok () else .error .attributeError

/-- Lines 187-208 of `Train.evaluate_loss`, up to the construction of the
per-label sample table: the attribute reads it performs. The encoder loading
and Keras model construction of lines 188-205 touch no attribute of `self`
and are assumed to succeed; line 207 reads `self.train_ds` or `self.eval_ds`
according to `on_train`, and line 208 evaluates `range(self.tmax)`, reading
`self.tmax`. -/
def evaluate_loss_attrReads (attrs : List String) (dir : Option String)
    (on_train : Bool) (layer : ℤ) : Except PyErr Unit := do
  let _ ← getattr attrs (if on_train then "train_ds" else "eval_ds")
  let _ ← getattr attrs "tmax"
  .ok ()

/-- Elementwise `tf.math.squared_difference` on rank-3 tensors (line 202). -/
def squared_difference (a b : T3) : T3 :=
  List.zipWith (List.zipWith (List.zipWith (fun x y => (x - y) ^ 2))) a b

/-- `tf.math.reduce_mean(t, axis=[1,2,3])` for one sample (line 203): the
mean over the spatial and channel axes of its rank-3 representation. -/
def reduce_mean_all (t : T3) : ℚ :=
  t.flatten.flatten.sum / (t.flatten.flatten.length : ℚ)

/-- Lines 188-194: the feature extractor of `evaluate_loss` — the encoder
loaded from `dir` truncated at the layer indexed by `layer` when `dir` is
truthy, and `tf.identity` otherwise. `loadTrunc d k` abstracts the external
`tf.keras.Model(load_encoder(d).input, load_encoder(d).layers[k].output)`. -/
def evaluate_loss_encoder (loadTrunc : String → ℤ → (T3 → T3))
    (dir : Option String) (layer : ℤ) : T3 → T3 :=
  match dir with
  | some d => if d ≠ "" then loadTrunc d layer else id
  | none => id

/-- Lines 196-205 applied to a batch of image pairs: one and the same encoder
is applied to `img1` and to `img2`, and the output for each sample is the
mean over the spatial and channel axes of the squared difference of the two
representations. -/
def evaluate_loss_preds (loadTrunc : String → ℤ → (T3 → T3))
    (dir : Option String) (layer : ℤ) (imgs1 imgs2 : List T3) : List ℚ :=
  let encoder := evaluate_loss_encoder loadTrunc dir layer
  List.zipWith (fun a b =>
    reduce_mean_all (squared_difference (encoder a) (encoder b))) imgs1 imgs2

/-- A trivial numeric context for concrete evaluations. -/
def ctx0 : NumCtx := ⟨fun _ => 0, fun _ => 0, 0⟩

/-- A well-formed in-range concrete sample. -/
def sample0 : Sample :=
  { H := 1, W := 1, C := 1, T_max := 5, label := 1, patch1 := [7],
    patch2 := [8], lat_start := 0, lat_end := 0, long_start := 0,
    long_end := 0 }

/-- A well-formed concrete sample whose label 10 lies outside `1 .. 4`. -/
def sampleOut : Sample :=
  { H := 1, W := 1, C := 1, T_max := 5, label := 10, patch1 := [3],
    patch2 := [4], lat_start := 0, lat_end := 0, long_start := 0,
    long_end := 0 }

/-- Concrete reader: concatenate the per-file record streams. -/
def read0 : List (List Sample) → List Sample := List.flatten

/-- Concrete shuffle that leaves the stream unchanged. -/
def shuf0 : ℕ → List Sample → List Sample := fun _ l => l

/-- Concrete shuffle that reverses the stream. -/
def shufRev : ℕ → List Sample → List Sample := fun _ l => l.reverse

/-- The `parse_train` output on the singleton batch `[sample0]` with default
`tmax`. -/
def out0 : ParseOut :=
  { X := { img1 := [[[[7]]]], img2 := [[[[8]]]] }, y := [[1, 0, 0, 0]],
    weights := [1] }

/-- The `parse_train` output on `[sample0]` with `append_latlon` and the
trivial numeric context, whose cosine and sine are constantly 0. -/
def out1 : ParseOut :=
  { X := { img1 := [[[[7, 0, 0, 0, 0]]]], img2 := [[[[8, 0, 0, 0, 0]]]] },
    y := [[1, 0, 0, 0]], weights := [1] }

/-- A concrete configuration with the `__init__` constants of lines 87-88,
an empty description and a fixed start time. -/
def cfg0 : TrainCfg :=
  { model_dir := "/data/repr_models_HR", prefixStr := "resnet-small-31c",
    description := "", start_time := ⟨2021, 6, 22, 1, 27⟩ }

instance {ε α : Type} [DecidableEq ε] [DecidableEq α] : DecidableEq (Except ε α)
  | .ok a, .ok b =>
    if h : a = b then .isTrue (by rw [h])
    else .isFalse (fun hc => h (Except.ok.inj hc))
  | .ok _, .error _ => .isFalse Except.noConfusion
  | .error _, .ok _ => .isFalse Except.noConfusion
  | .error e, .error f =>
    if h : e = f then .isTrue (by rw [h])
    else .isFalse (fun hc => h (Except.error.inj hc))

lemma one_hot_length (i : ℤ) (d : ℕ) : (one_hot i d).length = d := by
  simp [one_hot]

lemma one_hot_sum (i : ℤ) (d : ℕ) :
    (one_hot i d).sum = if 0 ≤ i ∧ i < (d : ℤ) then 1 else 0 := by
  induction d with
  | zero =>
    rw [one_hot]
    simp only [List.range_zero, List.map_nil, List.sum_nil]
    rw [if_neg]
    omega
  | succ d ih =>
    have h1 : one_hot i (d + 1) = one_hot i d ++ [if (d : ℤ) = i then 1 else 0] := by
      simp [one_hot, List.range_succ]
    rw [h1, List.sum_append, ih]
    simp only [List.sum_cons, List.sum_nil, add_zero]
    push_cast
    split_ifs <;> (try norm_num) <;> omega

lemma one_hot_all_zero (i : ℤ) (d : ℕ) (h : ¬ (0 ≤ i ∧ i < (d : ℤ))) :
    one_hot i d = List.replicate d 0 := by
  rw [one_hot, List.eq_replicate_iff]
  constructor
  · simp
  · intro b hb
    simp only [List.mem_map, List.mem_range] at hb
    obtain ⟨j, hj, rfl⟩ := hb
    rw [if_neg]
    omega

lemma batchList_nil {α : Type} (n : ℕ) : batchList n ([] : List α) = [] := by
  have h0 : (n - 1) / n = 0 := by
    cases n with
    | zero => rfl
    | succ k => exact Nat.div_eq_of_lt (by omega)
  simp [batchList, h0]

lemma batchList_cons {α : Type} (n : ℕ) (hn : 0 < n) (x : α) (xs : List α) :
    batchList n (x :: xs) =
      (x :: xs.take (n - 1)) :: batchList n (xs.drop (n - 1)) := by
  simp only [batchList, List.length_cons, List.length_drop]
  have hcount : (xs.length + 1 + n - 1) / n = xs.length / n + 1 := by
    have h : xs.length + 1 + n - 1 = xs.length + n := by omega
    rw [h, Nat.add_div_right _ hn]
  have hcount' : (xs.length - (n - 1) + n - 1) / n = xs.length / n := by
    rcases le_or_lt (n - 1) xs.length with h | h
    · have h1 : xs.length - (n - 1) + n - 1 = xs.length := by omega
      rw [h1]
    · have h1 : xs.length - (n - 1) + n - 1 = n - 1 := by omega
      rw [h1, Nat.div_eq_of_lt (by omega), Nat.div_eq_of_lt (by omega)]
  rw [hcount, hcount', List.range_succ_eq_map]
  simp only [List.map_cons, List.map_map]
  congr 1
  · cases n with
    | zero => omega
    | succ k => simp
  · apply List.map_congr_left
    intro i _
    simp only [Function.comp]
    rw [List.drop_drop]
    have h : (i + 1) * n = (n - 1 + i * n) + 1 := by
      have : (i + 1) * n = i * n + n := by ring
      omega
    rw [h, List.drop_succ_cons]

lemma batchList_one {α : Type} (l : List α) :
    batchList 1 l = l.map (fun x => [x]) := by
  induction l with
  | nil => rw [batchList_nil]; rfl
  | cons x xs ih => rw [batchList_cons 1 one_pos]; simp [ih]

lemma batchList_flatten {α : Type} (n : ℕ) (hn : 0 < n) :
    ∀ (l : List α), (batchList n l).flatten = l
  | [] => by rw [batchList_nil]; rfl
  | x :: xs => by
    rw [batchList_cons n hn, List.flatten_cons,
      batchList_flatten n hn (xs.drop (n - 1))]
    simp [List.cons_append, List.take_append_drop]
termination_by l => l.length
decreasing_by simp [List.length_drop]; omega

lemma mem_batchList_bounds {α : Type} (n : ℕ) (hn : 0 < n) :
    ∀ (l : List α), ∀ b ∈ batchList n l, b ≠ [] ∧ b.length ≤ n
  | [] => by rw [batchList_nil]; simp
  | x :: xs => by
    rw [batchList_cons n hn]
    intro b hb
    rcases List.mem_cons.mp hb with h | h
    · subst h
      refine ⟨by simp, ?_⟩
      simp only [List.length_cons, List.length_take]
      omega
    · exact mem_batchList_bounds n hn (xs.drop (n - 1)) b h
termination_by l => l.length
decreasing_by simp [List.length_drop]; omega

lemma batchList_full {α : Type} (n : ℕ) (hn : 0 < n) :
    ∀ (l : List α) (i : ℕ), i + 1 < (batchList n l).length →
      ((batchList n l).getD i []).length = n
  | [] => by rw [batchList_nil]; simp
  | x :: xs => by
    intro i hi
    rw [batchList_cons n hn] at hi ⊢
    cases i with
    | zero =>
      simp only [List.length_cons] at hi
      have hrest : batchList n (xs.drop (n - 1)) ≠ [] := by
        intro h
        rw [h] at hi
        simp at hi
      have hd : xs.drop (n - 1) ≠ [] := by
        intro h
        apply hrest
        rw [h, batchList_nil]
      have hlen : n - 1 < xs.length := by
        by_contra hc
        exact hd (List.drop_eq_nil_iff.mpr (by omega))
      simp only [List.getD_cons_zero, List.length_cons, List.length_take]
      omega
    | succ i =>
      simp only [List.getD_cons_succ]
      refine batchList_full n hn (xs.drop (n - 1)) i ?_
      simpa using hi
termination_by l => l.length
decreasing_by all_goals simp [List.length_drop]; omega

lemma reshape4_length (flat : List ℚ) (H W C : ℕ) :
    (reshape4 flat H W C).length = flat.length / (H * W * C) := by
  simp [reshape4]

lemma appendLatlon_length (ctx : NumCtx) (batch : List Sample) (H W : ℕ)
    (t : T4) : (appendLatlon ctx batch H W t).length = t.length := by
  simp [appendLatlon]

lemma parse_train_cons (ctx : NumCtx) (s : Sample) (rest : List Sample)
    (al disc : Bool) (tmax : Option ℕ) :
    parse_train ctx (s :: rest) al disc tmax =
      some { X := { img1 :=
                      (if al then
                        appendLatlon ctx (s :: rest) s.H s.W
                          (reshape4 ((s :: rest).map Sample.patch1).flatten s.H s.W s.C)
                      else
                        reshape4 ((s :: rest).map Sample.patch1).flatten s.H s.W s.C),
                    img2 :=
                      (if al then
                        appendLatlon ctx (s :: rest) s.H s.W
                          (reshape4 ((s :: rest).map Sample.patch2).flatten s.H s.W s.C)
                      else
                        reshape4 ((s :: rest).map Sample.patch2).flatten s.H s.W s.C) },
             y := (s :: rest).map
                    (fun t => one_hot (t.label - 1) (tmaxSelect tmax s.T_max - 1)),
             weights :=
               if disc then
                 (s :: rest).map (fun t =>
                   if t.label ≤ ((tmaxSelect tmax s.T_max / 2 : ℕ) : ℤ) then 19/10 else 1/10)
               else
                 List.replicate (s :: rest).length 1 } := rfl

lemma unbatchOne_parse_singleton (ctx : NumCtx) (al disc : Bool)
    (tmax : Option ℕ) (s : Sample) (hwf : SampleWF s) :
    unbatchOne (parse_train ctx [s] al disc tmax) =
      .ok [elemOf ctx al disc tmax s] := by
  obtain ⟨h1, h2, hpos⟩ := hwf
  have hflat1 : ([s].map Sample.patch1).flatten = s.patch1 := by simp
  have hflat2 : ([s].map Sample.patch2).flatten = s.patch2 := by simp
  have hR1 : (reshape4 s.patch1 s.H s.W s.C).length = 1 := by
    rw [reshape4_length, h1, Nat.div_self hpos]
  have hR2 : (reshape4 s.patch2 s.H s.W s.C).length = 1 := by
    rw [reshape4_length, h2, Nat.div_self hpos]
  rw [parse_train_cons]
  simp only [hflat1, hflat2, unbatchOne]
  have hrange : List.range 1 = [0] := rfl
  cases al <;> cases disc <;>
    simp [hR1, hR2, appendLatlon_length, elemOf, hrange]

lemma flatten_map_singleton {α β : Type} (f : α → β) (l : List α) :
    (l.map (fun x => [f x])).flatten = l.map f := by
  induction l with
  | nil => rfl
  | cons x xs ih => simp [ih]

lemma unbatchAll_parse (ctx : NumCtx) (al disc : Bool) (tmax : Option ℕ) :
    ∀ (l : List Sample), (∀ s ∈ l, SampleWF s) →
      unbatchAll ((batchList 1 l).map (fun b => parse_train ctx b al disc tmax)) =
        .ok (l.map (fun s => [elemOf ctx al disc tmax s])) := by
  intro l
  induction l with
  | nil =>
    intro _
    rw [batchList_nil]
    rfl
  | cons x xs ih =>
    intro h
    rw [batchList_cons 1 one_pos]
    simp only [Nat.sub_self, List.take_zero, List.drop_zero, List.map_cons]
    simp only [unbatchAll]
    rw [unbatchOne_parse_singleton ctx al disc tmax x (h x (by simp))]
    rw [ih (fun s hs => h s (by simp [hs]))]
    rfl

lemma one_hot_sum_eq_one_iff (tmax : Option ℕ) (s : Sample) :
    (one_hot (s.label - 1) (tmaxSelect tmax s.T_max - 1)).sum = 1 ↔
      labelInRange tmax s := by
  rw [one_hot_sum, labelInRange]
  split_ifs with h
  · constructor
    · intro _
      omega
    · intro _
      rfl
  · constructor
    · intro h0
      exact absurd h0 (by norm_num)
    · intro hr
      exfalso
      omega

/-- C2: every `(X, y, weight)` element emitted by the dataset built by
`make_train_ds` has a label vector `y` summing to exactly 1; samples whose
stored label lies outside `1 .. T_max - 1` (whose one-hot encoding is the
all-zero vector) are removed by the filter stage and never reach a batch:
the flattened output is exactly the image of the in-range samples of the
(possibly shuffled) stream, in order. -/
theorem make_train_ds_label_sum_one
    (ctx : NumCtx) (read : List (List Sample) → List Sample)
    (shuffleFn : ℕ → List Sample → List Sample) (files : List (List Sample))
    (batch_size : ℕ) (n_shuffle : Option ℕ) (al disc : Bool) (tmax : Option ℕ)
    (hbs : 0 < batch_size) (hfiles : files ≠ [])
    (hwf : ∀ s ∈ shuffledStream shuffleFn n_shuffle (read files), SampleWF s) :
    ∃ batches,
      make_train_ds ctx read shuffleFn files batch_size n_shuffle al disc tmax =
          .ok batches ∧
      batches.flatten =
        ((shuffledStream shuffleFn n_shuffle (read files)).filter
            (fun s => decide (labelInRange tmax s))).map (elemOf ctx al disc tmax) ∧
      ∀ b ∈ batches, ∀ e ∈ b, e.y.sum = 1 := by
  set stream := shuffledStream shuffleFn n_shuffle (read files) with hstream
  have hmain :
      make_train_ds ctx read shuffleFn files batch_size n_shuffle al disc tmax =
        .ok (batchList batch_size
          ((stream.filter (fun s => decide (labelInRange tmax s))).map
            (elemOf ctx al disc tmax))) := by
    rw [make_train_ds, if_neg hfiles]
    dsimp only
    rw [unbatchAll_parse ctx al disc tmax stream hwf]
    show Except.ok (batchList batch_size _) = _
    rw [flatten_map_singleton]
    rw [List.filter_map]
    congr 3
    apply List.filter_congr
    intro s _
    show decide ((elemOf ctx al disc tmax s).y.sum = 1) = _
    have hy : (elemOf ctx al disc tmax s).y =
        one_hot (s.label - 1) (tmaxSelect tmax s.T_max - 1) := rfl
    rw [hy]
    simp only [decide_eq_decide]
    exact one_hot_sum_eq_one_iff tmax s
  refine ⟨_, hmain, by rw [batchList_flatten batch_size hbs], ?_⟩
  intro b hb e he
  have hmem : e ∈ (batchList batch_size
      ((stream.filter (fun s => decide (labelInRange tmax s))).map
        (elemOf ctx al disc tmax))).flatten :=
    List.mem_flatten.mpr ⟨b, hb, he⟩
  rw [batchList_flatten batch_size hbs] at hmem
  obtain ⟨s, hs, rfl⟩ := List.mem_map.mp hmem
  have hr : labelInRange tmax s := by
    have := List.of_mem_filter hs
    simpa using this
  have hy : (elemOf ctx al disc tmax s).y =
      one_hot (s.label - 1) (tmaxSelect tmax s.T_max - 1) := rfl
  rw [hy]
  exact (one_hot_sum_eq_one_iff tmax s).mpr hr

lemma unbatchOne_ne_assert (p : Option ParseOut) :
    unbatchOne p ≠ .error .assertionError := by
  cases p with
  | none => simp [unbatchOne]
  | some o =>
    rw [unbatchOne]
    split <;> simp

lemma unbatchAll_ne_assert (ps : List (Option ParseOut)) :
    unbatchAll ps ≠ .error .assertionError := by
  induction ps with
  | nil => simp [unbatchAll]
  | cons p ps ih =>
    simp only [unbatchAll]
    cases hp : unbatchOne p with
    | error e =>
      have h := unbatchOne_ne_assert p
      rw [hp] at h
      intro hc
      exact h (by rw [show (Except.error e : Except PyErr (List Elem)) =
        Except.error PyErr.assertionError from by
          have : (Except.error e : Except PyErr (List (List Elem))) =
              Except.error PyErr.assertionError := hc
          cases this
          rfl])
    | ok v =>
      cases hq : unbatchAll ps with
      | error e =>
        rw [hq] at ih
        intro hc
        exact ih (by
          have : (Except.error e : Except PyErr (List (List Elem))) =
              Except.error PyErr.assertionError := hc
          cases this
          rfl)
      | ok vs => exact fun hc => Except.noConfusion hc

/-- C7: called with an empty files list, `make_train_ds` raises
`AssertionError` before constructing any dataset; with at least one file the
assertion never fires, so a dataset pipeline is actually built. -/
theorem make_train_ds_assert_nonempty_files (ctx : NumCtx)
    (read : List (List Sample) → List Sample)
    (shuffleFn : ℕ → List Sample → List Sample) (batch_size : ℕ)
    (n_shuffle : Option ℕ) (al disc : Bool) (tmax : Option ℕ) :
    make_train_ds ctx read shuffleFn [] batch_size n_shuffle al disc tmax =
        .error .assertionError ∧
    ∀ files : List (List Sample), files ≠ [] →
      make_train_ds ctx read shuffleFn files batch_size n_shuffle al disc tmax ≠
        .error .assertionError := by
  constructor
  · rw [make_train_ds, if_pos rfl]
  · intro files hf
    rw [make_train_ds, if_neg hf]
    dsimp only
    cases hq : unbatchAll ((batchList 1
        (shuffledStream shuffleFn n_shuffle (read files))).map
          (fun b => parse_train ctx b al disc tmax)) with
    | error e =>
      have h := unbatchAll_ne_assert ((batchList 1
        (shuffledStream shuffleFn n_shuffle (read files))).map
          (fun b => parse_train ctx b al disc tmax))
      rw [hq] at h
      intro hc
      apply h
      have : e = PyErr.assertionError := by
        have h2 := hc
        cases h2
        rfl
      rw [this]
    | ok elems => simp

/-- C4: `make_train_ds` applies shuffling only when `n_shuffle` is truthy
(the output is independent of the shuffle for `None` and 0, and the buffer
size passed to the shuffle is `n_shuffle` otherwise), and after parsing and
filtering it groups the elements into batches of `batch_size`: every batch
is nonempty and at most `batch_size` long, and every batch except possibly
the last is exactly `batch_size` long. The evaluation dataset of
`Train.setup_ds`, built with `n_shuffle=None`, is never shuffled: it does
not depend on the shuffle function at all. -/
theorem make_train_ds_shuffle_batch (ctx : NumCtx) :
    (∀ read shuffleFn shuffleFn' files batch_size al disc tmax
        (ns : Option ℕ), ns = none ∨ ns = some 0 →
        make_train_ds ctx read shuffleFn files batch_size ns al disc tmax =
          make_train_ds ctx read shuffleFn' files batch_size ns al disc tmax) ∧
    (∀ shuffleFn stream (k : ℕ), k ≠ 0 →
        shuffledStream shuffleFn (some k) stream = shuffleFn k stream) ∧
    (∀ read shuffleFn files batch_size ns al disc tmax batches,
        0 < batch_size →
        make_train_ds ctx read shuffleFn files batch_size ns al disc tmax =
          .ok batches →
        (∀ b ∈ batches, b ≠ [] ∧ b.length ≤ batch_size) ∧
        (∀ i, i + 1 < batches.length → (batches.getD i []).length = batch_size)) ∧
    (∀ read shuffleFn shuffleFn' filesTrain filesEval,
        (Train_setup_ds ctx read shuffleFn filesTrain filesEval).2 =
          (Train_setup_ds ctx read shuffleFn' filesTrain filesEval).2) := by
  refine ⟨?_, ?_, ?_, ?_⟩
  · intro read shuffleFn shuffleFn' files batch_size al disc tmax ns h
    rcases h with rfl | rfl <;> rfl
  · intro shuffleFn stream k hk
    rw [shuffledStream, if_neg hk]
  · intro read shuffleFn files batch_size ns al disc tmax batches hbs hok
    by_cases hf : files = []
    · rw [make_train_ds, if_pos hf] at hok
      exact Except.noConfusion hok
    · rw [make_train_ds, if_neg hf] at hok
      dsimp only at hok
      cases hq : unbatchAll ((batchList 1
          (shuffledStream shuffleFn ns (read files))).map
            (fun b => parse_train ctx b al disc tmax)) with
      | error e =>
        rw [hq] at hok
        exact Except.noConfusion hok
      | ok elems =>
        rw [hq] at hok
        have hb : batchList batch_size
            (elems.flatten.filter (fun e => decide (e.y.sum = 1))) = batches :=
          Except.ok.inj hok
        subst hb
        exact ⟨fun b hb' => mem_batchList_bounds batch_size hbs _ b hb',
          fun i hi => batchList_full batch_size hbs _ i hi⟩
  · intro read shuffleFn shuffleFn' filesTrain filesEval
    rfl

theorem make_train_ds_shuffle_batch_witness :
    ((none : Option ℕ) = none ∨ (none : Option ℕ) = some 0) ∧
    make_train_ds ctx0 read0 shuf0 [[sample0]] 2 none false false none =
      make_train_ds ctx0 read0 shufRev [[sample0]] 2 none false false none ∧
    (2 : ℕ) ≠ 0 ∧
    shuffledStream shufRev (some 2) [sample0, sampleOut] =
      shufRev 2 [sample0, sampleOut] ∧
    (0 : ℕ) < 2 ∧
    make_train_ds ctx0 read0 shuf0 [[]] 2 none false false none = .ok [] ∧
    (∀ b ∈ ([] : List (List Elem)), b ≠ [] ∧ b.length ≤ 2) :=
  ⟨Or.inl rfl,
   (make_train_ds_shuffle_batch ctx0).1 read0 shuf0 shufRev [[sample0]] 2
     false false none none (Or.inl rfl),
   by decide,
   (make_train_ds_shuffle_batch ctx0).2.1 shufRev [sample0, sampleOut] 2
     (by decide),
   by decide,
   by decide,
   ((make_train_ds_shuffle_batch ctx0).2.2.1 read0 shuf0 [[]]
     2 none false false none [] (by decide) (by decide)).1⟩

theorem make_train_ds_label_sum_one_witness :
    (0 : ℕ) < 2 ∧
    ([[sample0, sampleOut]] : List (List Sample)) ≠ [] ∧
    (∀ s ∈ shuffledStream shuf0 none (read0 [[sample0, sampleOut]]),
      SampleWF s) ∧
    (∃ batches,
      make_train_ds ctx0 read0 shuf0 [[sample0, sampleOut]] 2 none false false
          none = .ok batches ∧
      batches.flatten =
        ((shuffledStream shuf0 none (read0 [[sample0, sampleOut]])).filter
            (fun s => decide (labelInRange none s))).map
          (elemOf ctx0 false false none) ∧
      ∀ b ∈ batches, ∀ e ∈ b, e.y.sum = 1) :=
  ⟨by decide, by decide, by decide,
   make_train_ds_label_sum_one ctx0 read0 shuf0 [[sample0, sampleOut]] 2 none
     false false none (by decide) (by decide) (by decide)⟩

theorem make_train_ds_assert_nonempty_files_witness :
    ([[sample0]] : List (List Sample)) ≠ [] ∧
    make_train_ds ctx0 read0 shuf0 [[sample0]] 2 none false false none ≠
      .error .assertionError :=
  ⟨by decide,
   (make_train_ds_assert_nonempty_files ctx0 read0 shuf0 2 none false false
     none).2 [[sample0]] (by decide)⟩

lemma getD_range_map {β : Type} (f : ℕ → β) (m n : ℕ) (d : β) (h : n < m) :
    ((List.range m).map f).getD n d = f n := by
  rw [List.getD_eq_getElem?_getD, List.getElem?_map, List.getElem?_range h]
  rfl

lemma getD_map_of_lt {α β : Type} (f : α → β) (l : List α) (n : ℕ) (d : β)
    (d' : α) (h : n < l.length) : (l.map f).getD n d = f (l.getD n d') := by
  rw [List.getD_eq_getElem?_getD, List.getD_eq_getElem?_getD,
    List.getElem?_map, List.getElem?_eq_getElem h]
  rfl

lemma one_hot_getD (i : ℤ) (d j : ℕ) (h : j < d) :
    (one_hot i d).getD j 0 = if (j : ℤ) = i then 1 else 0 := by
  rw [one_hot, getD_range_map _ _ _ _ h]

/-- C1 (amended): for every batch of serialized samples, `parse_train` maps
the stored integer label `l` of each sample to a vector of length
`T_max - 1` whose entry at index `j` is 1 exactly when `j = l - 1` (so index
`l - 1` is set for in-range labels, and out-of-range labels give the
all-zero vector), where `T_max` is the `tmax` argument when it is given and
nonzero (Python truthiness of `tmax or ...`), and otherwise the `T_max`
record field of the first sample of the batch. -/
theorem parse_train_one_hot_labels (ctx : NumCtx) (s : Sample)
    (rest : List Sample) (al disc : Bool) (tmax : Option ℕ) (out : ParseOut)
    (hout : parse_train ctx (s :: rest) al disc tmax = some out) :
    out.y.length = (s :: rest).length ∧
    ∀ n, n < (s :: rest).length →
      (out.y.getD n []).length = tmaxSelect tmax s.T_max - 1 ∧
      ∀ j, j < tmaxSelect tmax s.T_max - 1 →
        (out.y.getD n []).getD j 0 =
          (if (j : ℤ) = ((s :: rest).getD n default).label - 1 then 1 else 0) := by
  rw [parse_train_cons] at hout
  have hy : out.y = (s :: rest).map
      (fun t => one_hot (t.label - 1) (tmaxSelect tmax s.T_max - 1)) := by
    rw [← Option.some.inj hout]
  constructor
  · rw [hy]
    simp
  · intro n hn
    rw [hy, getD_map_of_lt _ _ _ _ default (by simpa using hn)]
    constructor
    · rw [one_hot_length]
    · intro j hj
      rw [one_hot_getD _ _ _ hj]

theorem parse_train_one_hot_labels_witness :
    parse_train ctx0 [sample0] false false (some 7) =
      some { X := { img1 := [[[[7]]]], img2 := [[[[8]]]] },
             y := [[1, 0, 0, 0, 0, 0]], weights := [1] } ∧
    (({ X := { img1 := [[[[7]]]], img2 := [[[[8]]]] },
        y := [[1, 0, 0, 0, 0, 0]], weights := [1] } : ParseOut).y.length =
      [sample0].length ∧
    ∀ n, n < [sample0].length →
      (({ X := { img1 := [[[[7]]]], img2 := [[[[8]]]] },
          y := [[1, 0, 0, 0, 0, 0]], weights := [1] } : ParseOut).y.getD n
            []).length = tmaxSelect (some 7) sample0.T_max - 1 ∧
      ∀ j, j < tmaxSelect (some 7) sample0.T_max - 1 →
        (({ X := { img1 := [[[[7]]]], img2 := [[[[8]]]] },
            y := [[1, 0, 0, 0, 0, 0]], weights := [1] } : ParseOut).y.getD n
              []).getD j 0 =
          (if (j : ℤ) = ([sample0].getD n default).label - 1 then 1 else 0)) :=
  ⟨by decide,
   parse_train_one_hot_labels ctx0 sample0 [] false false (some 7) _
     (by decide)⟩

/-- C1 counterexample: `parse_train` is called with the `tmax` argument
given as 0 on a sample whose `T_max` record field is 5. The claim reads
`T_max` as the given argument, predicting a one-hot vector of length
`0 - 1`; the code evaluates `tmax or examples[T_max][0]` and uses 5, so the
emitted vector has length 4. -/
theorem parse_train_tmax_zero_cex :
    parse_train ctx0 [sample0] false false (some 0) =
      some { X := { img1 := [[[[7]]]], img2 := [[[[8]]]] },
             y := [[1, 0, 0, 0]], weights := [1] } ∧
    (([[1, 0, 0, 0]] : List (List ℚ)).getD 0 []).length =
      tmaxSelect (some 0) sample0.T_max - 1 ∧
    tmaxSelect (some 0) sample0.T_max - 1 ≠
      tmaxSelectSpec (some 0) sample0.T_max - 1 :=
  ⟨by decide, by decide, by decide⟩

lemma reshape4_mem_shape (flat : List ℚ) (H W C : ℕ) :
    ∀ img ∈ reshape4 flat H W C, img.length = H ∧
      ∀ row ∈ img, row.length = W ∧ ∀ ch ∈ row, ch.length = C := by
  intro img himg
  simp only [reshape4, List.mem_map] at himg
  obtain ⟨n, _, rfl⟩ := himg
  refine ⟨by simp, ?_⟩
  intro row hrow
  simp only [List.mem_map] at hrow
  obtain ⟨h, _, rfl⟩ := hrow
  refine ⟨by simp, ?_⟩
  intro ch hch
  simp only [List.mem_map] at hch
  obtain ⟨w, _, rfl⟩ := hch
  simp

lemma flatten_length_uniform {β : Type} (L : List (List β)) (k : ℕ)
    (h : ∀ l ∈ L, l.length = k) : L.flatten.length = L.length * k := by
  induction L with
  | nil => simp
  | cons l L ih =>
    simp only [List.flatten_cons, List.length_append, List.length_cons]
    rw [ih (fun x hx => h x (by simp [hx])), h l (by simp)]
    ring

lemma flatten_getD_uniform (L : List (List ℚ)) (k : ℕ)
    (hk : ∀ l ∈ L, l.length = k) (n r : ℕ) (hr : r < k) :
    L.flatten.getD (n * k + r) 0 = (L.getD n []).getD r 0 := by
  induction L generalizing n with
  | nil => simp
  | cons l L ih =>
    have hl : l.length = k := hk l (by simp)
    cases n with
    | zero =>
      simp only [Nat.zero_mul, Nat.zero_add, List.flatten_cons,
        List.getD_cons_zero]
      exact List.getD_append _ _ _ _ (by omega)
    | succ n =>
      simp only [List.flatten_cons, List.getD_cons_succ]
      rw [List.getD_append_right _ _ _ _
        (by have : (n + 1) * k = n * k + k := by ring
            omega)]
      have hidx : (n + 1) * k + r - l.length = n * k + r := by
        have : (n + 1) * k = n * k + k := by ring
        omega
      rw [hidx, ih (fun x hx => hk x (by simp [hx])) n]

lemma reshape4_getD (flat : List ℚ) (H W C n h w c : ℕ)
    (hn : n < flat.length / (H * W * C)) (hh : h < H) (hw : w < W)
    (hc : c < C) :
    tIdx4 (reshape4 flat H W C) n h w c =
      flat.getD (((n * H + h) * W + w) * C + c) 0 := by
  rw [tIdx4, reshape4]
  rw [getD_range_map _ _ _ _ hn, getD_range_map _ _ _ _ hh,
    getD_range_map _ _ _ _ hw, getD_range_map _ _ _ _ hc]

lemma flat_index_bound (H W C h w c : ℕ) (hh : h < H) (hw : w < W)
    (hc : c < C) : (h * W + w) * C + c < H * W * C := by
  have h2 : (h + 1) * W ≤ H * W := Nat.mul_le_mul_right W (by omega)
  have h1 : h * W + w + 1 ≤ H * W := by
    have h3 : (h + 1) * W = h * W + W := by ring
    omega
  calc (h * W + w) * C + c < (h * W + w) * C + C := by omega
    _ = (h * W + w + 1) * C := by ring
    _ ≤ (H * W) * C := Nat.mul_le_mul_right C h1
    _ = H * W * C := by ring

/-- C5: for every parsed batch (without the optional geospatial channels),
`parse_train` decodes the raw bytes of both co-located patches as float32
and reshapes each into a tensor of shape `(N, H, W, C)` with `H`, `W`, `C`
taken from the first sample of the batch, and returns them as the pair
`X = {img1, img2}`: the leading extent is the batch length, every image has
`H` rows of `W` columns of `C` channels, and entry `(n, h, w, c)` is float
number `(h*W + w)*C + c` of the raw buffer of sample `n`. -/
theorem parse_train_decode_reshape (ctx : NumCtx) (s : Sample)
    (rest : List Sample) (disc : Bool) (tmax : Option ℕ) (out : ParseOut)
    (hwf : ∀ t ∈ s :: rest, t.patch1.length = s.H * s.W * s.C ∧
            t.patch2.length = s.H * s.W * s.C)
    (hpos : 0 < s.H * s.W * s.C)
    (hout : parse_train ctx (s :: rest) false disc tmax = some out) :
    out.X.img1 =
      reshape4 ((s :: rest).map Sample.patch1).flatten s.H s.W s.C ∧
    out.X.img2 =
      reshape4 ((s :: rest).map Sample.patch2).flatten s.H s.W s.C ∧
    out.X.img1.length = (s :: rest).length ∧
    out.X.img2.length = (s :: rest).length ∧
    (∀ img ∈ out.X.img1, img.length = s.H ∧
      ∀ row ∈ img, row.length = s.W ∧ ∀ ch ∈ row, ch.length = s.C) ∧
    (∀ img ∈ out.X.img2, img.length = s.H ∧
      ∀ row ∈ img, row.length = s.W ∧ ∀ ch ∈ row, ch.length = s.C) ∧
    (∀ n h w c, n < (s :: rest).length → h < s.H → w < s.W → c < s.C →
      tIdx4 out.X.img1 n h w c =
        ((s :: rest).getD n default).patch1.getD ((h * s.W + w) * s.C + c) 0 ∧
      tIdx4 out.X.img2 n h w c =
        ((s :: rest).getD n default).patch2.getD ((h * s.W + w) * s.C + c) 0) := by
  rw [parse_train_cons] at hout
  have hrec := (Option.some.inj hout).symm
  subst hrec
  have hflat1 : ∀ x ∈ (s :: rest).map Sample.patch1,
      x.length = s.H * s.W * s.C := by
    intro x hx
    obtain ⟨t, ht, rfl⟩ := List.mem_map.mp hx
    exact (hwf t ht).1
  have hflat2 : ∀ x ∈ (s :: rest).map Sample.patch2,
      x.length = s.H * s.W * s.C := by
    intro x hx
    obtain ⟨t, ht, rfl⟩ := List.mem_map.mp hx
    exact (hwf t ht).2
  have hlen1 : ((s :: rest).map Sample.patch1).flatten.length =
      (s :: rest).length * (s.H * s.W * s.C) := by
    rw [flatten_length_uniform _ _ hflat1]
    simp
  have hlen2 : ((s :: rest).map Sample.patch2).flatten.length =
      (s :: rest).length * (s.H * s.W * s.C) := by
    rw [flatten_length_uniform _ _ hflat2]
    simp
  have hdiv1 : ((s :: rest).map Sample.patch1).flatten.length /
      (s.H * s.W * s.C) = (s :: rest).length := by
    rw [hlen1, Nat.mul_div_cancel _ hpos]
  have hdiv2 : ((s :: rest).map Sample.patch2).flatten.length /
      (s.H * s.W * s.C) = (s :: rest).length := by
    rw [hlen2, Nat.mul_div_cancel _ hpos]
  refine ⟨rfl, rfl, ?_, ?_, reshape4_mem_shape _ _ _ _,
    reshape4_mem_shape _ _ _ _, ?_⟩
  · show (reshape4 ((s :: rest).map Sample.patch1).flatten
      s.H s.W s.C).length = _
    rw [reshape4_length]
    exact hdiv1
  · show (reshape4 ((s :: rest).map Sample.patch2).flatten
      s.H s.W s.C).length = _
    rw [reshape4_length]
    exact hdiv2
  · intro n h w c hn hh hw hc
    have hidx : ((n * s.H + h) * s.W + w) * s.C + c =
        n * (s.H * s.W * s.C) + ((h * s.W + w) * s.C + c) := by
      ring
    have hb := flat_index_bound s.H s.W s.C h w c hh hw hc
    constructor
    · show tIdx4 (reshape4 ((s :: rest).map Sample.patch1).flatten
        s.H s.W s.C) n h w c = _
      rw [reshape4_getD _ _ _ _ _ _ _ _ (by rw [hdiv1]; exact hn) hh hw hc,
        hidx, flatten_getD_uniform _ _ hflat1 n _ hb,
        getD_map_of_lt Sample.patch1 _ n [] default (by simpa using hn)]
    · show tIdx4 (reshape4 ((s :: rest).map Sample.patch2).flatten
        s.H s.W s.C) n h w c = _
      rw [reshape4_getD _ _ _ _ _ _ _ _ (by rw [hdiv2]; exact hn) hh hw hc,
        hidx, flatten_getD_uniform _ _ hflat2 n _ hb,
        getD_map_of_lt Sample.patch2 _ n [] default (by simpa using hn)]

theorem parse_train_decode_reshape_witness :
    (∀ t ∈ [sample0], t.patch1.length = sample0.H * sample0.W * sample0.C ∧
        t.patch2.length = sample0.H * sample0.W * sample0.C) ∧
    0 < sample0.H * sample0.W * sample0.C ∧
    parse_train ctx0 [sample0] false false none = some out0 ∧
    (out0.X.img1 =
      reshape4 ([sample0].map Sample.patch1).flatten sample0.H sample0.W
        sample0.C ∧
    out0.X.img2 =
      reshape4 ([sample0].map Sample.patch2).flatten sample0.H sample0.W
        sample0.C ∧
    out0.X.img1.length = [sample0].length ∧
    out0.X.img2.length = [sample0].length ∧
    (∀ img ∈ out0.X.img1, img.length = sample0.H ∧
      ∀ row ∈ img, row.length = sample0.W ∧
        ∀ ch ∈ row, ch.length = sample0.C) ∧
    (∀ img ∈ out0.X.img2, img.length = sample0.H ∧
      ∀ row ∈ img, row.length = sample0.W ∧
        ∀ ch ∈ row, ch.length = sample0.C) ∧
    (∀ n h w c, n < [sample0].length → h < sample0.H → w < sample0.W →
        c < sample0.C →
      tIdx4 out0.X.img1 n h w c =
        ([sample0].getD n default).patch1.getD
          ((h * sample0.W + w) * sample0.C + c) 0 ∧
      tIdx4 out0.X.img2 n h w c =
        ([sample0].getD n default).patch2.getD
          ((h * sample0.W + w) * sample0.C + c) 0)) :=
  ⟨by decide, by decide, by decide,
   parse_train_decode_reshape ctx0 sample0 [] false none out0 (by decide)
     (by decide) (by decide)⟩

lemma getD_mapIdx_of_lt {α β : Type} (f : ℕ → α → β) (l : List α) (n : ℕ)
    (d : β) (d' : α) (h : n < l.length) :
    (l.mapIdx f).getD n d = f n (l.getD n d') := by
  rw [List.getD_eq_getElem?_getD, List.getD_eq_getElem?_getD,
    List.getElem?_eq_getElem (show n < (l.mapIdx f).length by simpa using h),
    List.getElem?_eq_getElem h]
  simp [List.getElem_mapIdx]

lemma getD_mem {α : Type} (l : List α) (n : ℕ) (d : α) (h : n < l.length) :
    l.getD n d ∈ l := by
  rw [List.getD_eq_getElem?_getD, List.getElem?_eq_getElem h]
  exact List.getElem_mem h

lemma appendLatlon_row (ctx : NumCtx) (batch : List Sample) (H W : ℕ)
    (t : T4) (n h w : ℕ) (hn : n < t.length)
    (hh : h < (t.getD n []).length)
    (hw : w < ((t.getD n []).getD h []).length) :
    (((appendLatlon ctx batch H W t).getD n []).getD h []).getD w [] =
      ((t.getD n []).getD h []).getD w [] ++
        [lat_cos ctx (batch.getD n default) H h,
         lat_sin ctx (batch.getD n default) H h,
         lon_cos ctx (batch.getD n default) W w,
         lon_sin ctx (batch.getD n default) W w] := by
  rw [appendLatlon, getD_mapIdx_of_lt _ _ _ _ [] hn]
  dsimp only
  rw [getD_mapIdx_of_lt _ _ _ _ [] hh, getD_mapIdx_of_lt _ _ _ _ [] hw]

/-- C3: when `append_latlon` is true, `parse_train` appends exactly four
geospatial feature channels to each patch: the cosine and sine of
`2*pi*latitude/180` on an `H`-point linspace from `lat_start` to `lat_end`,
and the cosine and sine of `2*pi*longitude/360` on a `W`-point linspace from
`long_start` to `long_end` — and the same four channels are appended to
both `patch1` and `patch2`, so each returned patch has `C + 4` channels. -/
theorem parse_train_append_latlon_channels (ctx : NumCtx) (s : Sample)
    (rest : List Sample) (disc : Bool) (tmax : Option ℕ) (out : ParseOut)
    (hwf : ∀ t ∈ s :: rest, t.patch1.length = s.H * s.W * s.C ∧
            t.patch2.length = s.H * s.W * s.C)
    (hpos : 0 < s.H * s.W * s.C)
    (hout : parse_train ctx (s :: rest) true disc tmax = some out) :
    out.X.img1.length = (s :: rest).length ∧
    out.X.img2.length = (s :: rest).length ∧
    ∀ n h w, n < (s :: rest).length → h < s.H → w < s.W →
      (((out.X.img1.getD n []).getD h []).getD w []).length = s.C + 4 ∧
      (((out.X.img2.getD n []).getD h []).getD w []).length = s.C + 4 ∧
      (((out.X.img1.getD n []).getD h []).getD w []).take s.C =
        (((reshape4 ((s :: rest).map Sample.patch1).flatten s.H s.W
            s.C).getD n []).getD h []).getD w [] ∧
      (((out.X.img2.getD n []).getD h []).getD w []).take s.C =
        (((reshape4 ((s :: rest).map Sample.patch2).flatten s.H s.W
            s.C).getD n []).getD h []).getD w [] ∧
      (((out.X.img1.getD n []).getD h []).getD w []).drop s.C =
        [ctx.fcos (2 * ctx.fpi *
            (linspace ((s :: rest).getD n default).lat_start
              ((s :: rest).getD n default).lat_end s.H).getD h 0 / 180),
         ctx.fsin (2 * ctx.fpi *
            (linspace ((s :: rest).getD n default).lat_start
              ((s :: rest).getD n default).lat_end s.H).getD h 0 / 180),
         ctx.fcos (2 * ctx.fpi *
            (linspace ((s :: rest).getD n default).long_start
              ((s :: rest).getD n default).long_end s.W).getD w 0 / 360),
         ctx.fsin (2 * ctx.fpi *
            (linspace ((s :: rest).getD n default).long_start
              ((s :: rest).getD n default).long_end s.W).getD w 0 / 360)] ∧
      (((out.X.img1.getD n []).getD h []).getD w []).drop s.C =
        (((out.X.img2.getD n []).getD h []).getD w []).drop s.C := by
  rw [parse_train_cons] at hout
  have hrec := (Option.some.inj hout).symm
  subst hrec
  have hflat1 : ∀ x ∈ (s :: rest).map Sample.patch1,
      x.length = s.H * s.W * s.C := by
    intro x hx
    obtain ⟨t, ht, rfl⟩ := List.mem_map.mp hx
    exact (hwf t ht).1
  have hflat2 : ∀ x ∈ (s :: rest).map Sample.patch2,
      x.length = s.H * s.W * s.C := by
    intro x hx
    obtain ⟨t, ht, rfl⟩ := List.mem_map.mp hx
    exact (hwf t ht).2
  have hdiv1 : (reshape4 ((s :: rest).map Sample.patch1).flatten
      s.H s.W s.C).length = (s :: rest).length := by
    rw [reshape4_length, flatten_length_uniform _ _ hflat1, List.length_map,
      Nat.mul_div_cancel _ hpos]
  have hdiv2 : (reshape4 ((s :: rest).map Sample.patch2).flatten
      s.H s.W s.C).length = (s :: rest).length := by
    rw [reshape4_length, flatten_length_uniform _ _ hflat2, List.length_map,
      Nat.mul_div_cancel _ hpos]
  refine ⟨?_, ?_, ?_⟩
  · show (appendLatlon ctx (s :: rest) s.H s.W _).length = _
    rw [appendLatlon_length]
    exact hdiv1
  · show (appendLatlon ctx (s :: rest) s.H s.W _).length = _
    rw [appendLatlon_length]
    exact hdiv2
  · intro n h w hn hh hw
    have hn1 : n < (reshape4 ((s :: rest).map Sample.patch1).flatten
        s.H s.W s.C).length := by rw [hdiv1]; exact hn
    have hn2 : n < (reshape4 ((s :: rest).map Sample.patch2).flatten
        s.H s.W s.C).length := by rw [hdiv2]; exact hn
    have hshape1 := reshape4_mem_shape ((s :: rest).map Sample.patch1).flatten
      s.H s.W s.C _ (getD_mem _ n [] hn1)
    have hshape2 := reshape4_mem_shape ((s :: rest).map Sample.patch2).flatten
      s.H s.W s.C _ (getD_mem _ n [] hn2)
    have hh1 : h < ((reshape4 ((s :: rest).map Sample.patch1).flatten
        s.H s.W s.C).getD n []).length := by rw [hshape1.1]; exact hh
    have hh2 : h < ((reshape4 ((s :: rest).map Sample.patch2).flatten
        s.H s.W s.C).getD n []).length := by rw [hshape2.1]; exact hh
    have hrow1 := hshape1.2 _ (getD_mem _ h [] hh1)
    have hrow2 := hshape2.2 _ (getD_mem _ h [] hh2)
    have hw1 : w < (((reshape4 ((s :: rest).map Sample.patch1).flatten
        s.H s.W s.C).getD n []).getD h []).length := by rw [hrow1.1]; exact hw
    have hw2 : w < (((reshape4 ((s :: rest).map Sample.patch2).flatten
        s.H s.W s.C).getD n []).getD h []).length := by rw [hrow2.1]; exact hw
    have hC1 := hrow1.2 _ (getD_mem _ w [] hw1)
    have hC2 := hrow2.2 _ (getD_mem _ w [] hw2)
    have he1 : (((appendLatlon ctx (s :: rest) s.H s.W
        (reshape4 ((s :: rest).map Sample.patch1).flatten s.H s.W
          s.C)).getD n []).getD h []).getD w [] =
        (((reshape4 ((s :: rest).map Sample.patch1).flatten s.H s.W
          s.C).getD n []).getD h []).getD w [] ++
        [lat_cos ctx ((s :: rest).getD n default) s.H h,
         lat_sin ctx ((s :: rest).getD n default) s.H h,
         lon_cos ctx ((s :: rest).getD n default) s.W w,
         lon_sin ctx ((s :: rest).getD n default) s.W w] :=
      appendLatlon_row ctx (s :: rest) s.H s.W _ n h w hn1 hh1 hw1
    have he2 : (((appendLatlon ctx (s :: rest) s.H s.W
        (reshape4 ((s :: rest).map Sample.patch2).flatten s.H s.W
          s.C)).getD n []).getD h []).getD w [] =
        (((reshape4 ((s :: rest).map Sample.patch2).flatten s.H s.W
          s.C).getD n []).getD h []).getD w [] ++
        [lat_cos ctx ((s :: rest).getD n default) s.H h,
         lat_sin ctx ((s :: rest).getD n default) s.H h,
         lon_cos ctx ((s :: rest).getD n default) s.W w,
         lon_sin ctx ((s :: rest).getD n default) s.W w] :=
      appendLatlon_row ctx (s :: rest) s.H s.W _ n h w hn2 hh2 hw2
    refine ⟨?_, ?_, ?_, ?_, ?_, ?_⟩
    · show ((((appendLatlon ctx (s :: rest) s.H s.W _).getD n []).getD h
        []).getD w []).length = _
      rw [he1, List.length_append, hC1]
      rfl
    · show ((((appendLatlon ctx (s :: rest) s.H s.W _).getD n []).getD h
        []).getD w []).length = _
      rw [he2, List.length_append, hC2]
      rfl
    · show ((((appendLatlon ctx (s :: rest) s.H s.W _).getD n []).getD h
        []).getD w []).take s.C = _
      rw [he1]
      exact List.take_left' hC1
    · show ((((appendLatlon ctx (s :: rest) s.H s.W _).getD n []).getD h
        []).getD w []).take s.C = _
      rw [he2]
      exact List.take_left' hC2
    · show ((((appendLatlon ctx (s :: rest) s.H s.W _).getD n []).getD h
        []).getD w []).drop s.C = _
      rw [he1, List.drop_left' hC1]
      simp [lat_cos, lat_sin, lon_cos, lon_sin]
    · show ((((appendLatlon ctx (s :: rest) s.H s.W _).getD n []).getD h
        []).getD w []).drop s.C =
        ((((appendLatlon ctx (s :: rest) s.H s.W _).getD n []).getD h
        []).getD w []).drop s.C
      rw [he1, he2, List.drop_left' hC1, List.drop_left' hC2]

theorem parse_train_append_latlon_channels_witness :
    (∀ t ∈ [sample0], t.patch1.length = sample0.H * sample0.W * sample0.C ∧
        t.patch2.length = sample0.H * sample0.W * sample0.C) ∧
    0 < sample0.H * sample0.W * sample0.C ∧
    parse_train ctx0 [sample0] true false none = some out1 ∧
    (out1.X.img1.length = [sample0].length ∧
    out1.X.img2.length = [sample0].length ∧
    ∀ n h w, n < [sample0].length → h < sample0.H → w < sample0.W →
      (((out1.X.img1.getD n []).getD h []).getD w []).length =
        sample0.C + 4 ∧
      (((out1.X.img2.getD n []).getD h []).getD w []).length =
        sample0.C + 4 ∧
      (((out1.X.img1.getD n []).getD h []).getD w []).take sample0.C =
        (((reshape4 ([sample0].map Sample.patch1).flatten sample0.H sample0.W
            sample0.C).getD n []).getD h []).getD w [] ∧
      (((out1.X.img2.getD n []).getD h []).getD w []).take sample0.C =
        (((reshape4 ([sample0].map Sample.patch2).flatten sample0.H sample0.W
            sample0.C).getD n []).getD h []).getD w [] ∧
      (((out1.X.img1.getD n []).getD h []).getD w []).drop sample0.C =
        [ctx0.fcos (2 * ctx0.fpi *
            (linspace ([sample0].getD n default).lat_start
              ([sample0].getD n default).lat_end sample0.H).getD h 0 / 180),
         ctx0.fsin (2 * ctx0.fpi *
            (linspace ([sample0].getD n default).lat_start
              ([sample0].getD n default).lat_end sample0.H).getD h 0 / 180),
         ctx0.fcos (2 * ctx0.fpi *
            (linspace ([sample0].getD n default).long_start
              ([sample0].getD n default).long_end sample0.W).getD w 0 / 360),
         ctx0.fsin (2 * ctx0.fpi *
            (linspace ([sample0].getD n default).long_start
              ([sample0].getD n default).long_end sample0.W).getD w 0 / 360)] ∧
      (((out1.X.img1.getD n []).getD h []).getD w []).drop sample0.C =
        (((out1.X.img2.getD n []).getD h []).getD w []).drop sample0.C) :=
  ⟨by decide, by decide, by decide,
   parse_train_append_latlon_channels ctx0 sample0 [] false none out1
     (by decide) (by decide) (by decide)⟩

/-- C6: `evaluate_loss` applies one and the same feature extractor to both
images of a pair — the encoder loaded from `dir` truncated at the layer
indexed by the `layer` argument, or the identity function when `dir` is
falsy — and for each sample outputs the mean over the spatial and channel
axes of the squared difference of the two representations. -/
theorem Train_evaluate_loss_same_extractor
    (loadTrunc : String → ℤ → (T3 → T3)) (dir : Option String) (layer : ℤ)
    (imgs1 imgs2 : List T3) :
    evaluate_loss_preds loadTrunc dir layer imgs1 imgs2 =
      List.zipWith (fun a b =>
        (squared_difference (evaluate_loss_encoder loadTrunc dir layer a)
            (evaluate_loss_encoder loadTrunc dir layer b)).flatten.flatten.sum /
        ((squared_difference (evaluate_loss_encoder loadTrunc dir layer a)
            (evaluate_loss_encoder loadTrunc dir layer
              b)).flatten.flatten.length : ℚ)) imgs1 imgs2 ∧
    evaluate_loss_encoder loadTrunc none layer = id ∧
    evaluate_loss_encoder loadTrunc (some "") layer = id ∧
    ∀ d : String, d ≠ "" →
      evaluate_loss_encoder loadTrunc (some d) layer = loadTrunc d layer := by
  refine ⟨rfl, rfl, rfl, ?_⟩
  intro d hd
  rw [evaluate_loss_encoder, if_pos hd]

theorem Train_evaluate_loss_same_extractor_witness :
    ("m" : String) ≠ "" ∧
    evaluate_loss_encoder (fun _ _ => id) (some "m") (-1) =
      (fun _ _ => id : String → ℤ → (T3 → T3)) "m" (-1) :=
  ⟨by decide,
   (Train_evaluate_loss_same_extractor (fun _ _ => id) (some "m") (-1) []
     []).2.2.2 "m" (by decide)⟩

/-- C8: no method of `Train` ever assigns the attribute `tmax`
(`trainInitAttrs` lists every attribute assigned on the instance), yet
`evaluate_loss` reads `self.tmax` on line 208; so every call of
`evaluate_loss` on a freshly constructed `Train` instance that reaches that
step raises `AttributeError`, regardless of the `dir`, `on_train` and
`layer` arguments. -/
theorem Train_evaluate_loss_attribute_error (dir : Option String)
    (on_train : Bool) (layer : ℤ) :
    "tmax" ∉ trainInitAttrs ∧
    evaluate_loss_attrReads trainInitAttrs dir on_train layer =
      .error .attributeError := by
  constructor
  · decide
  · cases on_train <;> rfl

/-- C9: `Train.setup_dir` creates the checkpoint directory, whose name is
the prefix joined (by an underscore) with the start timestamp formatted as
`%Y-%m-%d_%H%M`, and writes into it a `description.txt` file — only when the
description string is non-empty — and a `model_summary.txt` file. -/
theorem Train_setup_dir_effects (cfg : TrainCfg) (modelSummary : String) :
    (cfg.description = "" →
      setup_dir cfg modelSummary =
        [FsOp.makedirs (cfg.model_dir ++ "/" ++ cfg.prefixStr ++ "_" ++
            strftime_YmdHM cfg.start_time),
         FsOp.writeFile (checkpoint_dir cfg ++ "/model_summary.txt")
           modelSummary]) ∧
    (cfg.description ≠ "" →
      setup_dir cfg modelSummary =
        [FsOp.makedirs (cfg.model_dir ++ "/" ++ cfg.prefixStr ++ "_" ++
            strftime_YmdHM cfg.start_time),
         FsOp.writeFile (checkpoint_dir cfg ++ "/description.txt")
           cfg.description,
         FsOp.writeFile (checkpoint_dir cfg ++ "/model_summary.txt")
           modelSummary]) ∧
    strftime_YmdHM ⟨2021, 6, 22, 1, 27⟩ = "2021-06-22_0127" := by
  refine ⟨?_, ?_, by decide⟩
  · intro h
    simp [setup_dir, checkpoint_dir, h]
  · intro h
    simp [setup_dir, checkpoint_dir, h]

theorem Train_setup_dir_effects_witness :
    cfg0.description = "" ∧
    setup_dir cfg0 "summary" =
      [FsOp.makedirs (cfg0.model_dir ++ "/" ++ cfg0.prefixStr ++ "_" ++
          strftime_YmdHM cfg0.start_time),
       FsOp.writeFile (checkpoint_dir cfg0 ++ "/model_summary.txt")
         "summary"] :=
  ⟨by decide, (Train_setup_dir_effects cfg0 "summary").1 (by decide)⟩

/-- C10: `Train.__init__` discovers the training and evaluation TFRecord
files by glob patterns over fixed paths and stores each list of matches in
sorted order: the stored lists are permutations of the glob results, sorted
nondecreasingly, and the patterns are the two fixed path strings. -/
theorem Train_init_sorted_glob (globFn : String → List String) :
    List.Perm (data_path_train globFn) (globFn data_glob_train) ∧
    List.Pairwise (· ≤ ·) (data_path_train globFn) ∧
    List.Perm (data_path_eval globFn) (globFn data_glob_eval) ∧
    List.Pairwise (· ≤ ·) (data_path_eval globFn) ∧
    data_glob_train = "/data2/stengel/HR/rplearn_train_1979_1990.*.tfrecords" ∧
    data_glob_eval = "/data2/stengel/HR/rplearn_eval_2000_2002.*.tfrecords" := by
  have htrans : ∀ (a b c : String),
      (fun a b => decide (a ≤ b)) a b → (fun a b => decide (a ≤ b)) b c →
      (fun a b => decide (a ≤ b)) a c := by
    intro a b c hab hbc
    simp only [decide_eq_true_eq] at *
    exact le_trans hab hbc
  have htotal : ∀ (a b : String),
      ((fun a b => decide (a ≤ b)) a b || (fun a b => decide (a ≤ b)) b a) = true := by
    intro a b
    simpa using le_total a b
  refine ⟨List.mergeSort_perm _ _, ?_, List.mergeSort_perm _ _, ?_, rfl, rfl⟩
  · exact (List.sorted_mergeSort htrans htotal
      (globFn data_glob_train)).imp (fun h => of_decide_eq_true h)
  · exact (List.sorted_mergeSort htrans htotal
      (globFn data_glob_eval)).imp (fun h => of_decide_eq_true h)
